import Mathlib

/-!
Verification development for the yomo core: the client engine
(core/client.go), the broker supervisor loop, the serverless handler
context, and the y3 codec for StreamFrame
(pkg/frame-codec/y3codec/stream_frame.go).

Shallow embedding conventions:
* Go byte slices are `List Nat` (each entry a byte value).
* Go `uint` / `uint32` are `Nat` with explicit `% 2 ^ 64` / `% 2 ^ 32`
  where conversions occur; Go `int64` / `int32` are `Int` with explicit
  two's-complement folds.
* Errors are explicit inductive values; fallible code returns `Option`.
* Concurrency (channels, goroutines) is modelled by explicit step
  functions on state, with channel readiness and stream-open results
  passed in as environment inputs.
* Go string identifiers (broker tags, connection ids) are opaque map
  keys in the source, modelled as `Nat`.
-/

/-! ## Client engine (core/client.go) -/

/-- ClientType from the core package: Source, StreamFunction or
UpstreamZipper. -/
inductive ClientType where
  | source
  | streamFunction
  | upstreamZipper
deriving DecidableEq

/-- Errors surfaced by `Client.Connect`. `authFailed` models
`ErrAuthenticateFailed`; `emptyObserveTags` models the
`errors.New` value returned by the StreamFunction tag precheck; `other`
models any other error from `openControlStream` (network errors etc.),
tagged with an opaque code. -/
inductive ConnErr where
  | authFailed
  | emptyObserveTags
  | other (code : Nat)
deriving DecidableEq

/-- Result of running the `Connect` loop for a bounded number of
attempts: success, a returned error, or still looping (the code retries
indefinitely, so a fuel-bounded run may end mid-loop). -/
inductive ConnectOutcome where
  | ok
  | fail (e : ConnErr)
  | looping
deriving DecidableEq

/-- Observable trace of one `Connect` call: the outcome, the list of
sleep durations (in seconds, one `time.Sleep(time.Second)` per retry),
and the number of `openControlStream` attempts made. -/
structure ConnectRun where
  outcome : ConnectOutcome
  sleeps : List Nat
  attempts : Nat
deriving DecidableEq

/-- The client options relevant to the claims, from `clientOptions` in
core/options.go (via `defaultClientOption` and the `With...` setters). -/
structure ClientConf where
  clientType : ClientType
  observeDataTags : List Nat
  connectUntilSucceed : Bool
  nonBlockWrite : Bool

/-- The `connect:` goto-loop of `Client.Connect` (core/client.go lines
83-95). `att k` is the result of the k-th `openControlStream` call
(`none` = success). On an error, when `connectUntilSucceed` is set and
the error is not `ErrAuthenticateFailed`, the code sleeps one second and
retries; otherwise it returns the error. `fuel` bounds how many attempts
the model runs. -/
def connectLoop (u : Bool) (att : Nat → Option ConnErr) : Nat → Nat → ConnectRun
  | 0, _ => ⟨ConnectOutcome.looping, [], 0⟩
  | fuel + 1, k =>
    match att k with
    | none => ⟨ConnectOutcome.ok, [], 1⟩
    | some e =>
      if u = true ∧ ¬ e = ConnErr.authFailed then
        ⟨(connectLoop u att fuel (k + 1)).outcome,
         1 :: (connectLoop u att fuel (k + 1)).sleeps,
         (connectLoop u att fuel (k + 1)).attempts + 1⟩
      else ⟨ConnectOutcome.fail e, [], 1⟩

/-- Client.Connect (core/client.go lines 76-107): first the
StreamFunction empty-tag precheck (lines 77-79, returning an error
before any connection attempt), then the connect loop. -/
def Client.Connect (c : ClientConf) (att : Nat → Option ConnErr) (fuel : Nat) : ConnectRun :=
  if c.clientType = ClientType.streamFunction ∧ c.observeDataTags = [] then
    ⟨ConnectOutcome.fail ConnErr.emptyObserveTags, [], 0⟩
  else
    connectLoop c.connectUntilSucceed att fuel 0

/-- Errors delivered to `Client.handleFrameError`: `io.EOF` or any other
read/write error. -/
inductive FrameErr where
  | eof
  | other (code : Nat)
deriving DecidableEq

/-- Observable actions of one `handleFrameError` call: which error (if
any) was passed to `errorfn`, whether `ctxCancel` ran, whether the
non-blocking send on the reconnection channel was attempted, and whether
it actually went through. -/
structure HFEOut where
  errorfnCalledWith : Option FrameErr
  cancelled : Bool
  reconnectAttempted : Bool
  reconnectSignaled : Bool
deriving DecidableEq

/-- Client.handleFrameError (core/client.go lines 323-342). A nil error
returns at once; otherwise `errorfn` is called, then `io.EOF` cancels
the engine context and returns, and any other error attempts a
non-blocking send on the reconnection channel (`chanReady` says whether
the supervisor is ready to receive; the `default` branch drops the
signal otherwise). -/
def handleFrameError (err : Option FrameErr) (chanReady : Bool) : HFEOut :=
  match err with
  | none => ⟨none, false, false, false⟩
  | some FrameErr.eof => ⟨some FrameErr.eof, true, false, false⟩
  | some (FrameErr.other n) => ⟨some (FrameErr.other n), false, true, chanReady⟩

/-- The error returned by `nonBlockWriteFrame` when the frame channel
cannot accept the frame: `errors.New` with the message
yomo: client has lost connection (named `ErrDisconnected` in the
spec). -/
inductive WriteErr where
  | errDisconnected
deriving DecidableEq

/-- Whether a frame handed to `WriteFrame` reached the writer-pump
channel or was dropped. -/
inductive WriteOutcome where
  | enqueued
  | dropped
deriving DecidableEq

/-- Capacity of `writeFrameChan` as allocated by `NewClient`
(core/client.go line 69): `make(chan frame.Frame)` — an unbuffered
channel, for every option value. -/
def writeFrameChanCap (_ : ClientConf) : Nat := 0

/-- Client.blockWriteFrame (lines 188-191): the send blocks until the
pump receives, then the function returns nil. -/
def blockWriteFrame : WriteOutcome × Option WriteErr :=
  (WriteOutcome.enqueued, none)

/-- Client.nonBlockWriteFrame (lines 194-203): a select with a default
branch; `receiverReady` says whether the pump is ready to receive right
now (the channel is unbuffered, so readiness of a receiver is the only
way the send can proceed). -/
def nonBlockWriteFrame (receiverReady : Bool) : WriteOutcome × Option WriteErr :=
  if receiverReady then (WriteOutcome.enqueued, none)
  else (WriteOutcome.dropped, some WriteErr.errDisconnected)

/-- Client.WriteFrame (lines 180-185): dispatch on the `nonBlockWrite`
option. -/
def Client.WriteFrame (c : ClientConf) (receiverReady : Bool) :
    WriteOutcome × Option WriteErr :=
  if c.nonBlockWrite then nonBlockWriteFrame receiverReady else blockWriteFrame

/-- Client.Write (core/client.go lines 441-443): the io.Writer stub.
The second component is the list of frames enqueued or transmitted by
the call (none). -/
def Client.Write (_ : List Nat) : (Nat × Option WriteErr) × List (List Nat) :=
  ((0, none), [])

/-! ## Serverless context (serverless/context.go) -/

/-- frame.DataFrame, restricted to the fields the serverless context
touches. `Payload` is an `Option` because Go distinguishes a nil slice
from a non-nil one in `Context.Write`. -/
structure DataFrame where
  Tag : Nat
  Metadata : List Nat
  Payload : Option (List Nat)
  Streamed : Bool
deriving DecidableEq

/-- serverless.Context: the incoming data frame (the frame writer is a
parameter of `Context.Write` below). -/
structure Context where
  dataFrame : DataFrame

/-- Context.Write (serverless/context.go lines 35-47). A nil `data`
returns nil immediately; otherwise one DataFrame is built with the given
tag, the incoming frame's metadata and `data` as payload, and handed to
the frame writer. The second component is the list of frames written by
the call. -/
def Context.Write (c : Context) (writeFrame : DataFrame → Option WriteErr)
    (tag : Nat) (data : Option (List Nat)) : Option WriteErr × List DataFrame :=
  match data with
  | none => (none, [])
  | some d =>
    (writeFrame ⟨tag, c.dataFrame.Metadata, some d, false⟩,
     [⟨tag, c.dataFrame.Metadata, some d, false⟩])

/-! ## Broker (core broker, src/unnamed/part_001) -/

/-- Environment of one broker supervisor step: the result of
`OpenUniStream` on each connection (by connection id). -/
structure BrokerEnv where
  openOk : Nat → Bool

/-- The supervisor-owned routing maps of `Broker.run`: `observers` maps
a tag to the inner map of parked observer connections (the inner Go map
keyed by connection id is modelled as a duplicate-free list of ids in
insertion order); `readers` maps a tag to the parked reader. `none`
means the key is absent from the Go map — for `observers` this differs
from `some []`, the state after a fan-out emptied the inner map without
deleting the key. -/
structure BrokerState where
  observers : Nat → Option (List Nat)
  readers : Nat → Option Nat

/-- Observable effects of one supervisor step: ids of observers to which
a uni-stream was opened for docking, the reader closed as a duplicate
(if any), and whether a `copyWithLog` task was spawned. -/
structure BrokerEff where
  matched : List Nat
  closedReader : Option Nat
  copyStarted : Bool
deriving DecidableEq

/-- One message on the three supervisor channels of `Broker.run`:
an observer from `observerChan`, a tagged reader from `readerChan`, or a
tag from `readEOFChan`. -/
inductive BrokerEvent where
  | observer (tag cid : Nat)
  | reader (tag rid : Nat)
  | eofTag (tag : Nat)

/-- The empty maps allocated at the top of `Broker.run`. -/
def initBrokerState : BrokerState :=
  ⟨fun _ => none, fun _ => none⟩

/-- Pointwise map update. -/
def updFun (f : Nat → Option α) (k : Nat) (v : Option α) : Nat → Option α :=
  fun t => if t = k then v else f t

/-- The fan-out loop over parked observers (part_001 lines 219-230):
open a uni-stream per observer and delete it from the inner map
(one-shot); on an open error delete the failing observer and `break`,
leaving the rest parked. Returns (matched ids, ids left parked). -/
def fanOut (env : BrokerEnv) : List Nat → List Nat × List Nat
  | [] => ([], [])
  | c :: cs =>
    if env.openOk c then ((fanOut env cs).1.cons c, (fanOut env cs).2)
    else ([], cs)

/-- One iteration of the `Broker.run` select loop (part_001 lines
173-235), fed one channel message.
Observer arriving: with a parked reader, open a uni-stream on the
observer and start a copy task (dropping the observer on an open error);
with no parked reader, park the observer under its tag.
Reader arriving: with no observers entry for the tag, park it, unless a
reader is already parked, in which case close the new one; with an
observers entry (even an emptied one), fan out to every parked observer
and start one copy task from the reader.
EOF tag: drop the parked reader entry. -/
def brokerStep (env : BrokerEnv) (s : BrokerState) (ev : BrokerEvent) :
    BrokerState × BrokerEff :=
  match ev with
  | BrokerEvent.observer tag cid =>
    match s.readers tag with
    | some _ =>
      if env.openOk cid then (s, ⟨[cid], none, true⟩)
      else (s, ⟨[], none, false⟩)
    | none =>
      match s.observers tag with
      | none =>
        (⟨updFun s.observers tag (some [cid]), s.readers⟩, ⟨[], none, false⟩)
      | some m =>
        (⟨updFun s.observers tag (some (if cid ∈ m then m else m ++ [cid])), s.readers⟩,
         ⟨[], none, false⟩)
  | BrokerEvent.reader tag rid =>
    match s.observers tag with
    | none =>
      match s.readers tag with
      | none =>
        (⟨s.observers, updFun s.readers tag (some rid)⟩, ⟨[], none, false⟩)
      | some _ => (s, ⟨[], some rid, false⟩)
    | some vv =>
      (⟨updFun s.observers tag (some (fanOut env vv).2), s.readers⟩,
       ⟨(fanOut env vv).1, none, true⟩)
  | BrokerEvent.eofTag tag =>
    (⟨s.observers, updFun s.readers tag none⟩, ⟨[], none, false⟩)

/-- The set of observers parked for a tag, as the claims speak of it:
empty both when the key is absent and when the inner map was emptied. -/
def parkedObservers (s : BrokerState) (tag : Nat) : List Nat :=
  (s.observers tag).getD []

/-- States the supervisor maps can actually be in: the initial empty
maps, and anything reachable from them by supervisor steps under any
environment. -/
inductive ReachableBroker : BrokerState → Prop where
  | init : ReachableBroker initBrokerState
  | step (env : BrokerEnv) (s : BrokerState) (ev : BrokerEvent) :
      ReachableBroker s → ReachableBroker (brokerStep env s ev).1

/-- Result of the `io.Copy` inside `Broker.copyWithLog`: `none` models a
nil error, `eof` models `io.EOF`, `other` any other error. -/
inductive CopyErr where
  | eof
  | other (code : Nat)
deriving DecidableEq

/-- Broker.copyWithLog (part_001 lines 238-248), after the copy
finished with `copyResult`: returns the tag sent on `readEOFChan`
(exactly on `io.EOF`; any other error is only logged, a nil error does
nothing). -/
def copyWithLog (tag : Nat) (copyResult : Option CopyErr) : Option Nat :=
  match copyResult with
  | some CopyErr.eof => some tag
  | some (CopyErr.other _) => none
  | none => none

/-- Environment in which every uni-stream open succeeds. -/
def envAll : BrokerEnv := ⟨fun _ => true⟩

/-- Environment in which opening a uni-stream on connection 10 fails and
every other open succeeds. -/
def envFail10 : BrokerEnv := ⟨fun c => !(c == 10)⟩

/-- A reachable broker state with reader 7 parked under tag 0: one
reader event from the initial state. -/
def brokerS1 : BrokerState :=
  (brokerStep envAll initBrokerState (BrokerEvent.reader 0 7)).1

/-- A reachable broker state with observers 10 and 11 parked under
tag 0: two observer events from the initial state. -/
def brokerS2 : BrokerState :=
  (brokerStep envAll
    (brokerStep envAll initBrokerState (BrokerEvent.observer 0 10)).1
    (BrokerEvent.observer 0 11)).1

/-! ## y3 codec and StreamFrame (pkg/frame-codec/y3codec/stream_frame.go)

The y3 library itself (github.com/yomorun/y3) is not part of this
repository's sources; its packet layer is modelled from the spec: every
frame is a node packet whose header byte is the frame type, whose body
is a concatenation of primitive packets, each a 1-byte tag, a
base-128-varint size and a value; integer values are canonicalized to
the minimum byte length, and decoders index children by field tag. -/

/-- Modelled from the spec: base-128 varint encoder for packet sizes
(little-endian 7-bit groups, the high bit of a byte marking
continuation); `fuel` is the structural-recursion bound (one byte of
output per unit). -/
def uvarintEncF : Nat → Nat → List Nat
  | 0, n => [n % 128]
  | fuel + 1, n =>
    if n < 128 then [n]
    else (n % 128 + 128) :: uvarintEncF fuel (n / 128)

/-- Modelled from the spec: base-128 varint encoding of `n` (fuel `n`
always suffices, since each emitted byte divides the remainder by
128). -/
def uvarintEnc (n : Nat) : List Nat := uvarintEncF n n

/-- Modelled from the spec: base-128 varint decoder; returns the value
and the unconsumed tail. -/
def uvarintDec : List Nat → Option (Nat × List Nat)
  | [] => none
  | b :: rest =>
    if b < 128 then some (b, rest)
    else
      match uvarintDec rest with
      | some (m, r) => some (b - 128 + 128 * m, r)
      | none => none

/-- Modelled from the spec: minimum-byte-length big-endian bytes of a
nonnegative integer value (`fuel` bounds the byte count; 80 covers all
values below 2 ^ 640). -/
def natToBytesF : Nat → Nat → List Nat
  | 0, n => [n % 256]
  | fuel + 1, n =>
    if n < 256 then [n]
    else natToBytesF fuel (n / 256) ++ [n % 256]

/-- Modelled from the spec: canonical minimal byte encoding of an
unsigned integer value. -/
def natToBytesBE (n : Nat) : List Nat := natToBytesF 80 n

/-- Modelled from the spec: read back big-endian value bytes. -/
def bytesToNat (bs : List Nat) : Nat :=
  bs.foldl (fun a b => a * 256 + b) 0

/-- Modelled from the spec: the body of a node packet, the concatenation
of its primitive packets (tag byte, varint size, value bytes). -/
def primsEnc : List (Nat × List Nat) → List Nat
  | [] => []
  | (t, v) :: ps => t :: (uvarintEnc v.length ++ v) ++ primsEnc ps

/-- Modelled from the spec: `NodePacketEncoder.Encode` — header byte,
varint body size, body. -/
def nodeEnc (h : Nat) (ps : List (Nat × List Nat)) : List Nat :=
  h :: (uvarintEnc (primsEnc ps).length ++ primsEnc ps)

/-- Modelled from the spec: parse the primitive packets of a node body;
`fuel` bounds the number of packets (the body length always
suffices). -/
def parsePrims : Nat → List Nat → Option (List (Nat × List Nat))
  | _, [] => some []
  | 0, _ :: _ => none
  | fuel + 1, t :: rest =>
    match uvarintDec rest with
    | some (len, r2) =>
      if len ≤ r2.length then
        match parsePrims fuel (r2.drop len) with
        | some ps => some ((t, r2.take len) :: ps)
        | none => none
      else none
    | none => none

/-- Modelled from the spec: `y3.DecodeToNodePacket` — header byte,
varint body size (failing when the buffer is shorter), then the
primitive packets of the body. -/
def decodeToNodePacket (bs : List Nat) : Option (Nat × List (Nat × List Nat)) :=
  match bs with
  | [] => none
  | h :: rest =>
    match uvarintDec rest with
    | some (len, r2) =>
      if len ≤ r2.length then
        match parsePrims (r2.take len).length (r2.take len) with
        | some ps => some (h, ps)
        | none => none
      else none
    | none => none

/-- Modelled from the spec: the decoder's index of children by field
tag (`nodeBlock.PrimitivePackets[tag]`). -/
def lookupTag (ps : List (Nat × List Nat)) (t : Nat) : Option (List Nat) :=
  (ps.find? (fun p => p.1 == t)).map (fun p => p.2)

/-- frame.StreamFrame: `ID string`, `StreamID int64` and
`ChunkSize uint` (the field is a Go uint — `encodeStreamFrame` converts
it with `uint32(f.ChunkSize)` and `decodeStreamFrame` assigns
`uint(chunkSize)`). `ID` is the string's bytes. -/
structure StreamFrame where
  ID : List Nat
  StreamID : Int
  ChunkSize : Nat
deriving DecidableEq

/-- Field tag of the ID primitive packet (stream_frame.go line 63). -/
def tagStreamClientID : Nat := 1

/-- Field tag of the StreamID primitive packet (line 64). -/
def tagStreamID : Nat := 2

/-- Field tag of the ChunkSize primitive packet (line 65). -/
def tagStreamChunkSize : Nat := 3

/-- Modelled from the spec: the frame-type header byte of StreamFrame
(`f.Type()`; the concrete value lives in the frame package, outside
these sources, and does not affect the claims — `decodeStreamFrame`
never inspects it). -/
def typeStreamFrame : Nat := 128

/-- Modelled from the spec: `SetInt64Value` — the value bytes of a
signed 64-bit integer, the minimum-length bytes of its 64-bit
two's-complement pattern. -/
def int64Enc (x : Int) : List Nat :=
  natToBytesBE ((x % (2 ^ 64 : Int)).toNat)

/-- The Go conversion `uint32(f.ChunkSize)`. -/
def uint32Of (n : Nat) : Nat := n % 2 ^ 32

/-- Modelled from the spec: `ToUTF8String` — the value bytes read back
as the string's bytes. -/
def toUTF8String (bs : List Nat) : List Nat := bs

/-- Modelled from the spec: `ToInt64` — the value bytes read back as a
signed 64-bit integer (two's-complement fold of the 64-bit pattern). -/
def toInt64 (bs : List Nat) : Int :=
  if bytesToNat bs % 2 ^ 64 < 2 ^ 63 then ((bytesToNat bs % 2 ^ 64 : Nat) : Int)
  else ((bytesToNat bs % 2 ^ 64 : Nat) : Int) - 2 ^ 64

/-- Modelled from the spec: `ToInt32` — the value bytes read back as a
signed 32-bit integer (two's-complement fold of the 32-bit pattern). -/
def toInt32 (bs : List Nat) : Int :=
  if bytesToNat bs % 2 ^ 32 < 2 ^ 31 then ((bytesToNat bs % 2 ^ 32 : Nat) : Int)
  else ((bytesToNat bs % 2 ^ 32 : Nat) : Int) - 2 ^ 32

/-- The Go conversion `uint(chunkSize)` applied to the decoded int32:
reduction of the integer into the 64-bit unsigned range. -/
def goUintOfInt (x : Int) : Nat := (x % (2 ^ 64 : Int)).toNat

/-- encodeStreamFrame (stream_frame.go lines 9-25): a node packet with
the three primitive packets ID (string), StreamID (int64) and ChunkSize
(uint32, truncated from the Go uint field). -/
def encodeStreamFrame (f : StreamFrame) : List Nat :=
  nodeEnc typeStreamFrame
    [(tagStreamClientID, f.ID),
     (tagStreamID, int64Enc f.StreamID),
     (tagStreamChunkSize, natToBytesBE (uint32Of f.ChunkSize))]

/-- The zero StreamFrame a caller decodes into. -/
def streamFrameZero : StreamFrame := ⟨[], 0, 0⟩

/-- decodeStreamFrame (stream_frame.go lines 28-60): decode the node
packet, then for each of the three field tags present, set the
corresponding field — ID via `ToUTF8String`, StreamID via `ToInt64`,
and ChunkSize via `uint(p.ToInt32())`. Fields absent from the packet
keep the value they had in `f0`. -/
def decodeStreamFrame (data : List Nat) (f0 : StreamFrame) : Option StreamFrame :=
  match decodeToNodePacket data with
  | none => none
  | some (_, ps) =>
    some
      (let f1 :=
        match lookupTag ps tagStreamClientID with
        | some v => { f0 with ID := toUTF8String v }
        | none => f0
      let f2 :=
        match lookupTag ps tagStreamID with
        | some v => { f1 with StreamID := toInt64 v }
        | none => f1
      match lookupTag ps tagStreamChunkSize with
      | some v => { f2 with ChunkSize := goUintOfInt (toInt32 v) }
      | none => f2)

/-! ## Theorems: client engine -/

/-- With every attempt failing with a non-authentication error, the
connect loop under `connectUntilSucceed` never returns: it sleeps one
second per retry and keeps looping for any attempt bound. -/
theorem connectLoop_all_other (att : Nat → Option ConnErr)
    (h : ∀ k, ∃ n, att k = some (ConnErr.other n)) :
    ∀ fuel k, connectLoop true att fuel k
      = ⟨ConnectOutcome.looping, List.replicate fuel 1, fuel⟩ := by
  intro fuel
  induction fuel with
  | zero => intro k; rfl
  | succ f ih =>
    intro k
    obtain ⟨n, hn⟩ := h k
    simp [connectLoop, hn, ih (k + 1), List.replicate]

/-- C1: when the precheck passes, a failing `Client.Connect` returns the
first error if `connectUntilSucceed` is unset; with it set and every
error a non-authentication one it retries indefinitely, sleeping one
second per retry; and an `ErrAuthenticateFailed` on the first attempt is
returned at once, whether or not `connectUntilSucceed` is set. -/
theorem client_connect_retry_policy
    (att1 att2 att3 : Nat → Option ConnErr) (e : ConnErr) (fuel : Nat)
    (ct : ClientType) (tags : List Nat) (nb u : Bool)
    (hg : ¬(ct = ClientType.streamFunction ∧ tags = []))
    (h1 : att1 0 = some e)
    (h2 : ∀ k, ∃ n, att2 k = some (ConnErr.other n))
    (h3 : att3 0 = some ConnErr.authFailed) :
    Client.Connect ⟨ct, tags, false, nb⟩ att1 (fuel + 1)
      = ⟨ConnectOutcome.fail e, [], 1⟩ ∧
    Client.Connect ⟨ct, tags, true, nb⟩ att2 fuel
      = ⟨ConnectOutcome.looping, List.replicate fuel 1, fuel⟩ ∧
    Client.Connect ⟨ct, tags, u, nb⟩ att3 (fuel + 1)
      = ⟨ConnectOutcome.fail ConnErr.authFailed, [], 1⟩ := by
  refine ⟨?_, ?_, ?_⟩
  · simp [Client.Connect, hg, connectLoop, h1]
  · simp [Client.Connect, hg, connectLoop_all_other att2 h2 fuel 0]
  · simp [Client.Connect, hg, connectLoop, h3]

/-- Witness for C1 at concrete attempt schedules and fuel 2. -/
theorem client_connect_retry_policy_witness :
    Client.Connect ⟨ClientType.source, [], false, false⟩
        (fun _ => some (ConnErr.other 7)) 3
      = ⟨ConnectOutcome.fail (ConnErr.other 7), [], 1⟩ ∧
    Client.Connect ⟨ClientType.source, [], true, false⟩
        (fun k => some (ConnErr.other k)) 2
      = ⟨ConnectOutcome.looping, List.replicate 2 1, 2⟩ ∧
    Client.Connect ⟨ClientType.source, [], false, false⟩
        (fun _ => some ConnErr.authFailed) 3
      = ⟨ConnectOutcome.fail ConnErr.authFailed, [], 1⟩ :=
  client_connect_retry_policy (fun _ => some (ConnErr.other 7))
    (fun k => some (ConnErr.other k)) (fun _ => some ConnErr.authFailed)
    (ConnErr.other 7) 2 ClientType.source [] false false
    (by simp) rfl (fun k => ⟨k, rfl⟩) rfl

/-- C9: a StreamFunction client with an empty `observeDataTags` set gets
an error from `Client.Connect` with zero `openControlStream` attempts —
before any QUIC connection or control stream is opened; for every other
client type the precheck does not fire and connecting proceeds. -/
theorem client_connect_empty_tags_precheck
    (att : Nat → Option ConnErr) (fuel : Nat) (nb u : Bool)
    (ct : ClientType) (tags : List Nat) (hct : ¬ ct = ClientType.streamFunction) :
    Client.Connect ⟨ClientType.streamFunction, [], u, nb⟩ att fuel
      = ⟨ConnectOutcome.fail ConnErr.emptyObserveTags, [], 0⟩ ∧
    Client.Connect ⟨ct, tags, u, nb⟩ att fuel = connectLoop u att fuel 0 := by
  constructor
  · simp [Client.Connect]
  · simp [Client.Connect, hct]

/-- Witness for C9 at a Source client and a succeeding attempt. -/
theorem client_connect_empty_tags_precheck_witness :
    Client.Connect ⟨ClientType.streamFunction, [], false, false⟩ (fun _ => none) 1
      = ⟨ConnectOutcome.fail ConnErr.emptyObserveTags, [], 0⟩ ∧
    Client.Connect ⟨ClientType.source, [], false, false⟩ (fun _ => none) 1
      = connectLoop false (fun _ => none) 1 0 :=
  client_connect_empty_tags_precheck (fun _ => none) 1 false false
    ClientType.source [] (by simp)

/-- C5: `handleFrameError` on `io.EOF` cancels the engine context and
does not signal reconnection; on any other non-nil error it passes the
error to the installed error handler and attempts a non-blocking send on
the reconnection channel (the send going through exactly when the
supervisor is ready); a nil error causes no action at all. -/
theorem handle_frame_error_policy (chanReady : Bool) (n : Nat) :
    handleFrameError (some FrameErr.eof) chanReady
      = ⟨some FrameErr.eof, true, false, false⟩ ∧
    handleFrameError (some (FrameErr.other n)) chanReady
      = ⟨some (FrameErr.other n), false, true, chanReady⟩ ∧
    handleFrameError none chanReady = ⟨none, false, false, false⟩ :=
  ⟨rfl, rfl, rfl⟩

/-- C6 counterexample: `NewClient` allocates `writeFrameChan` with
`make(chan frame.Frame)` — capacity 0 with `nonBlockWrite` unset and
capacity 0 with it set, so the queue capacity (bounded vs unbounded) is
not determined by the `nonBlockWrite` option: blocking mode does not get
an unbounded queue. -/
theorem write_frame_capacity_cex :
    writeFrameChanCap ⟨ClientType.source, [], false, false⟩
        = writeFrameChanCap ⟨ClientType.source, [], false, true⟩ ∧
    writeFrameChanCap ⟨ClientType.source, [], false, true⟩ = 0 :=
  ⟨rfl, rfl⟩

/-- C6 (amended): `WriteFrame` in blocking mode always returns nil (the
send blocks until the pump takes the frame, so the frame is never
lost); in non-blocking mode it drops the frame and returns
`ErrDisconnected` exactly when the pump cannot take the frame
immediately; and the writer queue is an unbuffered channel (capacity 0)
regardless of the `nonBlockWrite` option. -/
theorem write_frame_modes (c : ClientConf) (receiverReady : Bool) :
    Client.WriteFrame c receiverReady
      = (if c.nonBlockWrite && !receiverReady then
          (WriteOutcome.dropped, some WriteErr.errDisconnected)
         else (WriteOutcome.enqueued, none)) ∧
    writeFrameChanCap c = 0 := by
  constructor
  · cases h : c.nonBlockWrite <;> cases receiverReady <;>
      simp [Client.WriteFrame, nonBlockWriteFrame, blockWriteFrame, h]
  · rfl

/-- C8: `Client.Write` returns `(0, nil)` for every byte slice, and
enqueues or transmits no frame. -/
theorem client_write_stub (p : List Nat) : Client.Write p = ((0, none), []) :=
  rfl

/-- C10: `Context.Write` with nil data returns nil and writes no frame;
with non-nil data it writes exactly one DataFrame carrying the given
tag, the data as payload, and the incoming frame's metadata unchanged,
returning the frame writer's result. -/
theorem context_write_frames (c : Context) (wf : DataFrame → Option WriteErr)
    (tag : Nat) (d : List Nat) :
    Context.Write c wf tag none = (none, []) ∧
    Context.Write c wf tag (some d)
      = (wf ⟨tag, c.dataFrame.Metadata, some d, false⟩,
         [⟨tag, c.dataFrame.Metadata, some d, false⟩]) :=
  ⟨rfl, rfl⟩

/-! ## Theorems: broker -/

/-- When every uni-stream open succeeds, the fan-out loop matches every
parked observer in order and leaves none parked. -/
theorem fanOut_all_ok (env : BrokerEnv) :
    ∀ l : List Nat, (∀ c ∈ l, env.openOk c = true) → fanOut env l = (l, []) := by
  intro l
  induction l with
  | nil => intro _; rfl
  | cons c cs ih =>
    intro h
    have hc : env.openOk c = true := h c (by simp)
    have hcs := ih (fun x hx => h x (by simp [hx]))
    simp [fanOut, hc, hcs]

/-- Invariant of the supervisor maps: no tag ever has both a parked
reader and an observers entry. A reader is parked only when the
observers key is absent, an observers key is created only when no reader
is parked, and matching never creates the missing one. -/
theorem broker_reader_observer_disjoint (s : BrokerState)
    (h : ReachableBroker s) : ∀ t, s.readers t = none ∨ s.observers t = none := by
  induction h with
  | init => intro t; exact Or.inl rfl
  | step env s0 ev hs ih =>
    intro t
    cases ev with
    | observer tag cid =>
      cases hr : s0.readers tag with
      | some r =>
        have hstate : (brokerStep env s0 (BrokerEvent.observer tag cid)).1 = s0 := by
          cases hok : env.openOk cid <;> simp [brokerStep, hr, hok]
        rw [hstate]; exact ih t
      | none =>
        cases ho : s0.observers tag with
        | none =>
          by_cases ht : t = tag
          · subst ht; exact Or.inl (by simp [brokerStep, hr, ho, updFun, hr])
          · rcases ih t with hl | hrt
            · exact Or.inl (by simp [brokerStep, hr, ho, updFun, hl])
            · exact Or.inr (by simp [brokerStep, hr, ho, updFun, ht, hrt])
        | some m =>
          by_cases ht : t = tag
          · subst ht; exact Or.inl (by simp [brokerStep, hr, ho, updFun, hr])
          · rcases ih t with hl | hrt
            · exact Or.inl (by simp [brokerStep, hr, ho, updFun, hl])
            · exact Or.inr (by simp [brokerStep, hr, ho, updFun, ht, hrt])
    | reader tag rid =>
      cases ho : s0.observers tag with
      | none =>
        cases hr : s0.readers tag with
        | none =>
          by_cases ht : t = tag
          · subst ht; exact Or.inr (by simp [brokerStep, hr, ho, updFun, ho])
          · rcases ih t with hl | hrt
            · exact Or.inl (by simp [brokerStep, hr, ho, updFun, ht, hl])
            · exact Or.inr (by simp [brokerStep, hr, ho, updFun, hrt])
        | some r =>
          have hstate : (brokerStep env s0 (BrokerEvent.reader tag rid)).1 = s0 := by
            simp [brokerStep, hr, ho]
          rw [hstate]; exact ih t
      | some vv =>
        have hrtag : s0.readers tag = none := by
          rcases ih tag with hl | hrt
          · exact hl
          · rw [ho] at hrt; cases hrt
        by_cases ht : t = tag
        · subst ht; exact Or.inl (by simp [brokerStep, ho, updFun, hrtag])
        · rcases ih t with hl | hrt
          · exact Or.inl (by simp [brokerStep, ho, updFun, hl])
          · exact Or.inr (by simp [brokerStep, ho, updFun, ht, hrt])
    | eofTag tag =>
      by_cases ht : t = tag
      · subst ht; exact Or.inl (by simp [brokerStep, updFun])
      · rcases ih t with hl | hrt
        · exact Or.inl (by simp [brokerStep, updFun, ht, hl])
        · exact Or.inr (by simp [brokerStep, hrt])

/-- C3: in every reachable supervisor state (where at most one parked
reader per tag exists by construction of the readers map), a reader
arriving for a tag with no parked observer while another reader is
already parked is closed, the old reader is kept, and the maps are
unchanged. -/
theorem broker_duplicate_reader (env : BrokerEnv) (s : BrokerState)
    (hreach : ReachableBroker s) (tag rid oldr : Nat)
    (_hobs : parkedObservers s tag = []) (hrd : s.readers tag = some oldr) :
    brokerStep env s (BrokerEvent.reader tag rid)
      = (s, ⟨[], some rid, false⟩) ∧
    (brokerStep env s (BrokerEvent.reader tag rid)).1.readers tag = some oldr := by
  have hobsnone : s.observers tag = none := by
    rcases broker_reader_observer_disjoint s hreach tag with hl | hr
    · rw [hl] at hrd; cases hrd
    · exact hr
  constructor
  · simp [brokerStep, hobsnone, hrd]
  · simp [brokerStep, hobsnone, hrd]

/-- Witness for C3 at the reachable state with reader 7 parked under
tag 0: a second reader 9 for tag 0 is closed and reader 7 is kept. -/
theorem broker_duplicate_reader_witness :
    brokerStep envAll brokerS1 (BrokerEvent.reader 0 9)
      = (brokerS1, ⟨[], some 9, false⟩) ∧
    (brokerStep envAll brokerS1 (BrokerEvent.reader 0 9)).1.readers 0 = some 7 :=
  broker_duplicate_reader envAll brokerS1
    (ReachableBroker.step envAll initBrokerState (BrokerEvent.reader 0 7)
      ReachableBroker.init)
    0 9 7 (by decide) (by decide)

/-- C2 counterexample: observers 10 and 11 are parked for tag 0 (a
reachable state, two observer events from the initial state); a reader
arrives while opening a uni-stream on observer 10 fails. The loop
deletes 10 and breaks: no observer is matched, and observer 11 is still
parked afterwards — not every parked observer is matched and removed,
and the observer set for the tag is not empty. -/
theorem broker_one_shot_cex :
    (brokerStep envFail10 brokerS2 (BrokerEvent.reader 0 5)).2.matched = [] ∧
    (brokerStep envFail10 brokerS2 (BrokerEvent.reader 0 5)).1.observers 0
      = some [11] ∧
    parkedObservers (brokerStep envFail10 brokerS2 (BrokerEvent.reader 0 5)).1 0
      ≠ [] := by
  refine ⟨by decide, by decide, by decide⟩

/-- C2 (amended): when a reader arrives for a tag with a non-empty set
of parked observers and every uni-stream open on them succeeds, every
parked observer is matched and removed: the observer set for the tag is
empty immediately afterwards (the tag key remains, holding the emptied
inner map), and a second reader for the tag matches no observer. -/
theorem broker_one_shot_matching (env env2 : BrokerEnv) (s : BrokerState)
    (tag rid rid2 : Nat) (vv : List Nat)
    (hobs : s.observers tag = some vv) (_hne : vv ≠ [])
    (hok : ∀ c ∈ vv, env.openOk c = true) :
    (brokerStep env s (BrokerEvent.reader tag rid)).2.matched = vv ∧
    (brokerStep env s (BrokerEvent.reader tag rid)).1.observers tag = some [] ∧
    parkedObservers (brokerStep env s (BrokerEvent.reader tag rid)).1 tag = [] ∧
    (brokerStep env2 (brokerStep env s (BrokerEvent.reader tag rid)).1
        (BrokerEvent.reader tag rid2)).2.matched = [] := by
  have hf := fanOut_all_ok env vv hok
  refine ⟨?_, ?_, ?_, ?_⟩ <;>
    simp [brokerStep, hobs, hf, parkedObservers, updFun, fanOut]

/-- Witness for C2 at the reachable state with observers 10 and 11
parked under tag 0 and every open succeeding. -/
theorem broker_one_shot_matching_witness :
    (brokerStep envAll brokerS2 (BrokerEvent.reader 0 5)).2.matched = [10, 11] ∧
    (brokerStep envAll brokerS2 (BrokerEvent.reader 0 5)).1.observers 0 = some [] ∧
    parkedObservers (brokerStep envAll brokerS2 (BrokerEvent.reader 0 5)).1 0 = [] ∧
    (brokerStep envAll (brokerStep envAll brokerS2 (BrokerEvent.reader 0 5)).1
        (BrokerEvent.reader 0 6)).2.matched = [] :=
  broker_one_shot_matching envAll envAll brokerS2 0 5 6 [10, 11]
    (by decide) (by decide) (by decide)

/-- C4: a finished copy task sends its tag on the EOF channel exactly
when the copy ended with `io.EOF` (any other error is only logged, so no
supervisor event arises and the maps stay as they are); and the
supervisor, on receiving a tag from the EOF channel, deletes that tag's
parked reader entry, leaving the observers map and every other reader
entry unchanged. -/
theorem broker_copy_eof (env : BrokerEnv) (s : BrokerState) (tag n : Nat) :
    copyWithLog tag (some CopyErr.eof) = some tag ∧
    copyWithLog tag (some (CopyErr.other n)) = none ∧
    copyWithLog tag none = none ∧
    (brokerStep env s (BrokerEvent.eofTag tag)).1.readers tag = none ∧
    (brokerStep env s (BrokerEvent.eofTag tag)).1.observers = s.observers ∧
    (brokerStep env s (BrokerEvent.eofTag tag)).2 = ⟨[], none, false⟩ ∧
    ∀ t, ¬ t = tag →
      (brokerStep env s (BrokerEvent.eofTag tag)).1.readers t = s.readers t := by
  refine ⟨rfl, rfl, rfl, ?_, rfl, rfl, ?_⟩
  · simp [brokerStep, updFun]
  · intro t ht; simp [brokerStep, updFun, ht]

/-- Witness for C4: after the EOF event for tag 0, the reader entry of
tag 1 is untouched. -/
theorem broker_copy_eof_witness :
    (brokerStep envAll brokerS1 (BrokerEvent.eofTag 0)).1.readers 1
      = brokerS1.readers 1 :=
  (broker_copy_eof envAll brokerS1 0 3).2.2.2.2.2.2 1 (by decide)

/-! ## Theorems: y3 codec and StreamFrame -/

/-- Varint round-trip at bounded fuel: decoding an encoded size yields
the size back and leaves the following bytes untouched. -/
theorem uvarintDec_encF (rest : List Nat) :
    ∀ fuel n, n < 128 ^ fuel → uvarintDec (uvarintEncF fuel n ++ rest) = some (n, rest) := by
  intro fuel
  induction fuel with
  | zero =>
    intro n hn
    have h0 : n = 0 := by simpa using hn
    subst h0
    simp [uvarintEncF, uvarintDec]
  | succ f ih =>
    intro n hn
    by_cases h : n < 128
    · simp [uvarintEncF, h, uvarintDec]
    · have hd : n / 128 < 128 ^ f := by
        rw [Nat.div_lt_iff_lt_mul (by norm_num)]
        calc n < 128 ^ (f + 1) := hn
          _ = 128 ^ f * 128 := by rw [pow_succ]
      have hge : ¬ (n % 128 + 128 < 128) := by omega
      simp [uvarintEncF, h, uvarintDec, hge, ih (n / 128) hd]
      omega

/-- Varint round-trip: fuel `n` always suffices. -/
theorem uvarintDec_enc (n : Nat) (rest : List Nat) :
    uvarintDec (uvarintEnc n ++ rest) = some (n, rest) := by
  apply uvarintDec_encF
  cases n with
  | zero => simp
  | succ m =>
    calc m + 1 < 2 ^ (m + 1) := Nat.lt_two_pow (m + 1)
      _ ≤ 128 ^ (m + 1) := Nat.pow_le_pow_left (by norm_num) (m + 1)

/-- Reading value bytes distributes over a final byte. -/
theorem bytesToNat_append_byte (xs : List Nat) (b : Nat) :
    bytesToNat (xs ++ [b]) = bytesToNat xs * 256 + b := by
  simp [bytesToNat, List.foldl_append]

/-- Value-byte round-trip at bounded fuel. -/
theorem bytesToNat_natToBytesF :
    ∀ fuel n, n < 256 ^ fuel → bytesToNat (natToBytesF fuel n) = n := by
  intro fuel
  induction fuel with
  | zero =>
    intro n hn
    have h0 : n = 0 := by simpa using hn
    subst h0
    rfl
  | succ f ih =>
    intro n hn
    by_cases h : n < 256
    · simp [natToBytesF, h, bytesToNat]
    · have hd : n / 256 < 256 ^ f := by
        rw [Nat.div_lt_iff_lt_mul (by norm_num)]
        calc n < 256 ^ (f + 1) := hn
          _ = 256 ^ f * 256 := by rw [pow_succ]
      simp only [natToBytesF, if_neg h]
      rw [bytesToNat_append_byte, ih (n / 256) hd]
      omega

/-- Value-byte round-trip for every value below 2 ^ 64 (fuel 80 covers
values below 256 ^ 80). -/
theorem bytesToNat_natToBytesBE (n : Nat) (hn : n < 2 ^ 64) :
    bytesToNat (natToBytesBE n) = n := by
  apply bytesToNat_natToBytesF
  calc n < 2 ^ 64 := hn
    _ = 256 ^ 8 := by norm_num
    _ ≤ 256 ^ 80 := Nat.pow_le_pow_right (by norm_num) (by norm_num)

/-- A node body has at least one byte per primitive packet. -/
theorem primsEnc_length (ps : List (Nat × List Nat)) :
    ps.length ≤ (primsEnc ps).length := by
  induction ps with
  | nil => simp [primsEnc]
  | cons p ps ih =>
    obtain ⟨t, v⟩ := p
    simp only [primsEnc, List.length_cons, List.length_append]
    omega

/-- Parsing an encoded node body returns exactly its primitive packets,
for any fuel at least the number of packets. -/
theorem parsePrims_primsEnc :
    ∀ (ps : List (Nat × List Nat)) (fuel : Nat), ps.length ≤ fuel →
      parsePrims fuel (primsEnc ps) = some ps := by
  intro ps
  induction ps with
  | nil =>
    intro fuel _
    cases fuel <;> rfl
  | cons p ps ih =>
    intro fuel hf
    obtain ⟨t, v⟩ := p
    obtain ⟨g, rfl⟩ : ∃ g, fuel = g + 1 :=
      ⟨fuel - 1, by simp only [List.length_cons] at hf; omega⟩
    have hps : ps.length ≤ g := by simp only [List.length_cons] at hf; omega
    have hform : primsEnc ((t, v) :: ps)
        = t :: (uvarintEnc v.length ++ (v ++ primsEnc ps)) := by
      simp [primsEnc, List.append_assoc]
    rw [hform]
    simp only [parsePrims]
    rw [uvarintDec_enc]
    have hle : v.length ≤ (v ++ primsEnc ps).length := by
      simp [List.length_append]
    simp only [hle, if_true, List.take_left, List.drop_left, ih g hps]

/-- Decoding an encoded node packet returns its header byte and its
primitive packets. -/
theorem decodeToNodePacket_nodeEnc (h : Nat) (ps : List (Nat × List Nat)) :
    decodeToNodePacket (nodeEnc h ps) = some (h, ps) := by
  simp only [nodeEnc, decodeToNodePacket]
  rw [uvarintDec_enc]
  simp only [le_refl, if_true, List.take_length]
  rw [parsePrims_primsEnc ps (primsEnc ps).length (primsEnc_length ps)]

/-- The int64 value codec is the identity on the int64 range. -/
theorem toInt64_int64Enc (x : Int) (h1 : -(2 ^ 63) ≤ x) (h2 : x < 2 ^ 63) :
    toInt64 (int64Enc x) = x := by
  have hnn : (0 : Int) ≤ x % (2 ^ 64 : Int) := Int.emod_nonneg x (by norm_num)
  have hlt : x % (2 ^ 64 : Int) < 2 ^ 64 := Int.emod_lt_of_pos x (by norm_num)
  have hb : (x % (2 ^ 64 : Int)).toNat < 2 ^ 64 := by omega
  unfold toInt64 int64Enc
  rw [bytesToNat_natToBytesBE _ hb]
  split <;> omega

/-- Truncating to uint32, reading back as int32 and converting to a Go
uint restores every ChunkSize below 2 ^ 31. -/
theorem goUint_toInt32_chunk (n : Nat) (hn : n < 2 ^ 31) :
    goUintOfInt (toInt32 (natToBytesBE (uint32Of n))) = n := by
  have hb : uint32Of n < 2 ^ 64 := by
    unfold uint32Of
    omega
  unfold goUintOfInt toInt32
  rw [bytesToNat_natToBytesBE _ hb]
  unfold uint32Of
  split <;> omega

/-- C7 counterexample: the StreamFrame with empty ID, StreamID 0 and
ChunkSize 2 ^ 31 (a valid Go uint) does not survive the round-trip:
encoding truncates ChunkSize with `uint32(f.ChunkSize)` and decoding
reads it back through `ToInt32`, whose negative result the assignment
`uint(chunkSize)` turns into 2 ^ 64 - 2 ^ 31. -/
theorem stream_frame_roundtrip_cex :
    decodeStreamFrame (encodeStreamFrame ⟨[], 0, 2 ^ 31⟩) streamFrameZero
      ≠ some ⟨[], 0, 2 ^ 31⟩ ∧
    decodeStreamFrame (encodeStreamFrame ⟨[], 0, 2 ^ 31⟩) streamFrameZero
      = some ⟨[], 0, 2 ^ 64 - 2 ^ 31⟩ := by
  constructor
  · decide
  · decide

/-- C7 (amended): for every StreamFrame whose StreamID is in the int64
range and whose ChunkSize is below 2 ^ 31 — including empty and zero
fields — decoding the encoded bytes restores the frame exactly. -/
theorem stream_frame_roundtrip (f : StreamFrame)
    (h1 : -(2 ^ 63) ≤ f.StreamID) (h2 : f.StreamID < 2 ^ 63)
    (h3 : f.ChunkSize < 2 ^ 31) :
    decodeStreamFrame (encodeStreamFrame f) streamFrameZero = some f := by
  obtain ⟨i, sid, cs⟩ := f
  unfold decodeStreamFrame encodeStreamFrame
  rw [decodeToNodePacket_nodeEnc]
  simp only [lookupTag, List.find?, tagStreamClientID, tagStreamID, tagStreamChunkSize]
  simp [streamFrameZero, toUTF8String, toInt64_int64Enc sid h1 h2,
    goUint_toInt32_chunk cs h3]

/-- Witness for C7 at a small concrete frame with a negative StreamID. -/
theorem stream_frame_roundtrip_witness :
    decodeStreamFrame (encodeStreamFrame ⟨[5, 6], -3, 7⟩) streamFrameZero
      = some ⟨[5, 6], -3, 7⟩ :=
  stream_frame_roundtrip ⟨[5, 6], -3, 7⟩ (by decide) (by decide) (by decide)
